import Mathlib

/-!
Verification development for the "Služby - denní plánování" application
(a daily revenue-target planner for retail branches).

The development shallowly embeds the program's core logic:

* `src/utils/dateUtils.ts` — `getRemainingDaysInfo`, which classifies the
  remaining days of the current month into weekdays and weekend days.
  JavaScript `Date` semantics (proleptic Gregorian calendar, `getDay`
  returning 0 = Sunday … 6 = Saturday, `new Date(y, m+1, 0).getDate()`
  giving the month length) are embedded via a rata-die day count.
  The source function takes no parameter and reads the ambient clock
  (`new Date()`); the ambient clock value is made explicit here as a
  `JsClock` argument.

* `src/App.tsx` — the `filteredResult` memo (override resolution and the
  per-weekday target computation), the `progressStats` memo (completion
  percentage), `handleUpdateOverride` (layering a user edit into the
  override map), and the ingestion loop of `processFile` together with its
  inner `parseVal` helper (lines 137–169: the per-row loop that runs after
  the header columns have been located; its input here is the list of data
  rows, i.e. the rows from index 5 on, restricted to the four located
  columns).

JavaScript numbers are modelled as rationals (`ℚ`); `Math.round` is
`⌊x + 1/2⌋` (round half toward +∞), matching JavaScript on rationals.
-/

/-- Gregorian leap-year rule, as implemented by JavaScript `Date`. -/
def isLeapYear (y : Nat) : Bool :=
  y % 4 == 0 && (y % 100 != 0 || y % 400 == 0)

/-- Length of the 0-based month `m` (JavaScript `getMonth` convention,
0 = January … 11 = December) of year `y`; this is what
`new Date(y, m + 1, 0).getDate()` returns. -/
def monthLength (y : Nat) (m : Nat) : Nat :=
  if m = 1 then (if isLeapYear y then 29 else 28)
  else if m = 3 ∨ m = 5 ∨ m = 8 ∨ m = 10 then 30 else 31

/-- Days of year `y` that precede the 0-based month `m`. -/
def daysBeforeMonth (y : Nat) (m : Nat) : Nat :=
  (List.range m).foldl (fun a k => a + monthLength y k) 0

/-- Rata-die day number of year `y` (≥ 1), 0-based month `m`, day `d`
in the proleptic Gregorian calendar; day 1 is 0001-01-01, a Monday. -/
def rataDie (y m d : Nat) : Nat :=
  365 * (y - 1) + (y - 1) / 4 - (y - 1) / 100 + (y - 1) / 400 + daysBeforeMonth y m + d

/-- JavaScript `new Date(y, m, d).getDay()`: 0 = Sunday … 6 = Saturday. -/
def jsGetDay (y m d : Nat) : Nat := rataDie y m d % 7

/-- The weekend test used in `getRemainingDaysInfo`:
`dayOfWeek === 0 || dayOfWeek === 6`. -/
def isWeekendDOW (w : Nat) : Bool := w == 0 || w == 6

/-- Result record of `getRemainingDaysInfo` (dateUtils.ts lines 24–29).
`total` is `(lastDay - currentDay) + 1` computed in JavaScript number
arithmetic, hence an integer. -/
structure RemainingDaysInfo where
  total : Int
  weekdays : Nat
  weekends : Nat
  isTodayWeekend : Bool
deriving DecidableEq, Repr

/-- The counting loop of `getRemainingDaysInfo` (dateUtils.ts lines 12–20):
starting at day `d`, classify `n` consecutive days of month `m` of year `y`,
returning `(weekdays, weekends)`. -/
def countDaysAux (y m : Nat) : Nat → Nat → Nat × Nat
  | _, 0 => (0, 0)
  | d, n + 1 =>
    let rest := countDaysAux y m (d + 1) n
    if isWeekendDOW (jsGetDay y m d) then (rest.1, rest.2 + 1) else (rest.1 + 1, rest.2)

/-- Embedding of `getRemainingDaysInfo` (dateUtils.ts lines 2–30) with the
calendar date of the ambient `new Date()` made explicit: `year` is
`getFullYear()`, `month` is the 0-based `getMonth()`, `day` is `getDate()`
(1-based). The loop `for (d = currentDay; d <= lastDay; d++)` runs
`lastDay + 1 - day` times (0 times when `day > lastDay`). -/
def getRemainingDaysInfo (year month day : Nat) : RemainingDaysInfo :=
  let lastDay := monthLength year month
  let c := countDaysAux year month day (lastDay + 1 - day)
  { total := (lastDay : Int) - (day : Int) + 1
    weekdays := c.1
    weekends := c.2
    isTodayWeekend := isWeekendDOW (jsGetDay year month day) }

/-- The ambient clock read by `getRemainingDaysInfo` via `new Date()`:
a calendar date together with the time of day (milliseconds since
midnight), which a JavaScript `Date` also carries. -/
structure JsClock where
  year : Nat
  month : Nat
  day : Nat
  msOfDay : Nat
deriving DecidableEq, Repr

/-- The source `getRemainingDaysInfo` as actually written: it has no
parameter and derives everything from the ambient clock `now = new Date()`
(dateUtils.ts line 3). -/
def getRemainingDaysInfoNow (now : JsClock) : RemainingDaysInfo :=
  getRemainingDaysInfo now.year now.month now.day

/-- A raw spreadsheet cell as seen by the ingestion loop: a number, a
string, or blank (null/undefined/absent). -/
inductive CellValue where
  | num (q : ℚ)
  | str (s : String)
  | blank
deriving DecidableEq, Repr

/-- A data row of the report, restricted to the four located columns.
`branch` is the branch-name cell already converted to a string by
`?.toString()` (`none` models an absent/nullish cell). -/
structure RawRow where
  branch : Option String
  revRR : CellValue
  planAsr : CellValue
  serAsist : CellValue
deriving DecidableEq, Repr

/-- Element of the `allCalculations` state: the `CalculationResult` record
of types.ts, with `rawRow` restricted to the modelled columns. -/
structure CalculationResult where
  branchName : String
  revenueRR : ℚ
  planAsrServicesRevenue : ℚ
  serviceAsistRevenue : ℚ
  daysRemaining : Int
  weekdaysRemaining : Nat
  weekendsRemaining : Nat
  isTodayWeekend : Bool
  finalValue : ℚ
  rawRow : RawRow
deriving DecidableEq, Repr

/-- The `parseVal` helper of the ingestion loop (App.tsx lines 142–148):
`String(val).replace(/\s/g, one empty string)` removes every whitespace
character, and `.replace(comma, dot)` replaces only the first comma. -/
def replaceFirstComma : List Char → List Char
  | [] => []
  | c :: cs => if c = ',' then '.' :: cs else c :: replaceFirstComma cs

/-- Digit list to natural number, most significant first. -/
def digitsToNat (ds : List Char) : Nat :=
  ds.foldl (fun a c => a * 10 + (c.toNat - 48)) 0

/-- Syntactic decomposition of a JavaScript numeric literal prefix:
sign, integer digits, fraction digits, exponent sign and exponent digits
(`ed = []` when no valid exponent part follows the mantissa). -/
structure FloatScan where
  neg : Bool
  ip : List Char
  fp : List Char
  eneg : Bool
  ed : List Char
deriving DecidableEq, Repr

/-- Scanner part of JavaScript `parseFloat`: optional sign, decimal digits
with optional fraction and optional exponent; the longest valid numeric
prefix is taken and trailing garbage ignored; `none` models `NaN`
(no digits in the mantissa). -/
def scanFloat (cs0 : List Char) : Option FloatScan :=
  let neg : Bool := match cs0 with
    | c :: _ => c = '-'
    | [] => false
  let cs1 := match cs0 with
    | c :: rest => if c = '-' ∨ c = '+' then rest else cs0
    | [] => cs0
  let ip := cs1.takeWhile Char.isDigit
  let cs2 := cs1.dropWhile Char.isDigit
  let fp := match cs2 with
    | c :: rest => if c = '.' then rest.takeWhile Char.isDigit else []
    | [] => []
  let cs3 := match cs2 with
    | c :: rest => if c = '.' then rest.dropWhile Char.isDigit else cs2
    | [] => cs2
  if ip.isEmpty ∧ fp.isEmpty then none
  else
    let escan : Bool × List Char := match cs3 with
      | c :: rest =>
        if c = 'e' ∨ c = 'E' then
          let en : Bool := match rest with
            | c2 :: _ => c2 = '-'
            | [] => false
          let rest2 := match rest with
            | c2 :: r2 => if c2 = '-' ∨ c2 = '+' then r2 else rest
            | [] => rest
          let ed := rest2.takeWhile Char.isDigit
          if ed.isEmpty then (false, []) else (en, ed)
        else (false, [])
      | [] => (false, [])
    some { neg := neg, ip := ip, fp := fp, eneg := escan.1, ed := escan.2 }

/-- Exact rational value of a scanned numeric literal:
`sign * (intPart + fracPart / 10^fracDigits) * 10^exponent`. -/
def floatScanValue (r : FloatScan) : ℚ :=
  let mant : ℚ := (digitsToNat r.ip : ℚ) + (digitsToNat r.fp : ℚ) / (10 : ℚ) ^ r.fp.length
  let expo : Int := if r.eneg then -(digitsToNat r.ed : Int) else (digitsToNat r.ed : Int)
  (if r.neg then -1 else 1) * mant * (10 : ℚ) ^ expo

/-- JavaScript `parseFloat` on exact rationals: skip leading whitespace,
scan the longest numeric prefix, and evaluate it. -/
def jsParseFloat (s : String) : Option ℚ :=
  (scanFloat (s.data.dropWhile Char.isWhitespace)).map floatScanValue

/-- App.tsx lines 142–148: a numeric cell is returned as-is; a falsy cell
(blank, or the empty string) yields 0; otherwise all whitespace is removed,
the first comma becomes a dot, and the string is parsed, an unparseable
string yielding 0. -/
def parseVal : CellValue → ℚ
  | CellValue.num q => q
  | CellValue.blank => 0
  | CellValue.str s =>
    if s = "" then 0
    else
      let cleaned := String.mk (replaceFirstComma (s.data.filter (fun c => !c.isWhitespace)))
      match jsParseFloat cleaned with
      | some q => q
      | none => 0

/-- JavaScript `Math.round` on a rational: round half toward +∞. -/
def jsRound (q : ℚ) : Int := Int.floor (q + 1 / 2)

/-- JavaScript `String.prototype.trim`: remove leading and trailing
whitespace. -/
def jsTrim (s : String) : String :=
  String.mk (((s.data.dropWhile Char.isWhitespace).reverse.dropWhile
    Char.isWhitespace).reverse)

/-- The per-row ingestion loop of `processFile` (App.tsx lines 137–169):
rows whose branch cell is nullish or trims to the empty string are skipped;
`revenueRR` and `serviceAsistRevenue` are `Math.round`ed; a row whose
rounded `revRR` and parsed `planAsr` are both 0 is skipped; surviving rows
are pushed in order with the shared `daysInfo` fields and `finalValue` 0. -/
def processRows (di : RemainingDaysInfo) : List RawRow → List CalculationResult
  | [] => []
  | row :: rest =>
    let tail := processRows di rest
    match row.branch with
    | none => tail
    | some s0 =>
      let branchVal := jsTrim s0
      if branchVal = "" then tail
      else
        let revRR := jsRound (parseVal row.revRR)
        let planAsr := parseVal row.planAsr
        let serAsist := jsRound (parseVal row.serAsist)
        if revRR = 0 ∧ planAsr = 0 then tail
        else
          { branchName := branchVal
            revenueRR := (revRR : ℚ)
            planAsrServicesRevenue := planAsr
            serviceAsistRevenue := (serAsist : ℚ)
            daysRemaining := di.total
            weekdaysRemaining := di.weekdays
            weekendsRemaining := di.weekends
            isTodayWeekend := di.isTodayWeekend
            finalValue := 0
            rawRow := row } :: tail

/-- One entry of the `manualOverrides` record: a partial record of the two
overridable fields (App.tsx line 25). -/
structure BranchOverride where
  serviceAsistRevenue : Option ℚ := none
  revenueRR : Option ℚ := none
deriving DecidableEq, Repr

/-- The two field names accepted by `handleUpdateOverride`. -/
inductive OverrideField where
  | serviceAsistRevenue
  | revenueRR
deriving DecidableEq, Repr

/-- Computed-key assignment `{...(prev[selectedBranch] || \x7b\x7d), [field]: newValue}`. -/
def setField (o : BranchOverride) : OverrideField → ℚ → BranchOverride
  | OverrideField.serviceAsistRevenue, v => { o with serviceAsistRevenue := some v }
  | OverrideField.revenueRR, v => { o with revenueRR := some v }

/-- The `filteredResult` memo (App.tsx lines 56–80). The `daysInfo` the
source obtains from the ambient `getRemainingDaysInfo()` is an explicit
argument. An empty `selectedBranch` is falsy, and a branch missing from
`allCalculations` yields `none`; otherwise the two overridable fields are
resolved against `manualOverrides` (`?? ` is `Option.getD`), the weighted
divisor and the remaining revenue are formed, and the base record is
returned with the effective figures and the recomputed `finalValue`. -/
def filteredResult (allCalculations : List CalculationResult) (selectedBranch : String)
    (manualOverrides : String → Option BranchOverride) (weekendWeight : ℚ)
    (daysInfo : RemainingDaysInfo) : Option CalculationResult :=
  if selectedBranch = "" then none
  else
    match allCalculations.find? (fun c => c.branchName == selectedBranch) with
    | none => none
    | some baseData =>
      let branchOverrides := manualOverrides selectedBranch
      let currentServiceAsist :=
        (branchOverrides.bind (fun o => o.serviceAsistRevenue)).getD baseData.serviceAsistRevenue
      let currentRevenueRR :=
        (branchOverrides.bind (fun o => o.revenueRR)).getD baseData.revenueRR
      let weightedDays := (daysInfo.weekdays : ℚ) + weekendWeight * (daysInfo.weekends : ℚ)
      let remainingTotalRevenue :=
        currentRevenueRR * baseData.planAsrServicesRevenue - currentServiceAsist
      let recalculatedFinalValue :=
        if 0 < weightedDays then remainingTotalRevenue / weightedDays else 0
      some { baseData with
        serviceAsistRevenue := currentServiceAsist
        revenueRR := currentRevenueRR
        finalValue := recalculatedFinalValue }

/-- Result of the `progressStats` memo (App.tsx lines 83–89). -/
structure ProgressStats where
  percent : ℚ
  target : ℚ
deriving DecidableEq, Repr

/-- The `progressStats` memo (App.tsx lines 83–89): completion percentage
against the implied target `revenueRR * planAsrServicesRevenue`. -/
def progressStats : Option CalculationResult → ProgressStats
  | none => { percent := 0, target := 0 }
  | some fr =>
    let target := fr.revenueRR * fr.planAsrServicesRevenue
    let current := fr.serviceAsistRevenue
    let percent := if 0 < target then current / target * 100 else 0
    { percent := percent, target := target }

/-- The application state touched by override handling: the ingested
calculations, the selection, the override map and the weekend weight. -/
structure AppState where
  allCalculations : List CalculationResult
  selectedBranch : String
  manualOverrides : String → Option BranchOverride
  weekendWeight : ℚ

/-- `handleUpdateOverride` (App.tsx lines 193–202): with no selected branch
it does nothing; otherwise it replaces the selected branch's entry in
`manualOverrides` by the previous entry (or an empty record) with `field`
set to `newValue`. No other state field is written. -/
def handleUpdateOverride (s : AppState) (field : OverrideField) (newValue : ℚ) : AppState :=
  if s.selectedBranch = "" then s
  else
    { s with manualOverrides := fun b =>
        if b = s.selectedBranch then
          some (setField ((s.manualOverrides s.selectedBranch).getD {}) field newValue)
        else s.manualOverrides b }

/-- The `filteredResult` memo read off the application state. -/
def filteredResultState (s : AppState) (di : RemainingDaysInfo) : Option CalculationResult :=
  filteredResult s.allCalculations s.selectedBranch s.manualOverrides s.weekendWeight di

/-- A row with no cell content, used as the `rawRow` of hand-built records. -/
def emptyRow : RawRow :=
  { branch := none, revRR := CellValue.blank, planAsr := CellValue.blank,
    serAsist := CellValue.blank }

/-- The spec's worked scenario: 8 weekdays and 4 weekend days remain. -/
def scenarioDays : RemainingDaysInfo :=
  { total := 12, weekdays := 8, weekends := 4, isTodayWeekend := false }

/-- The spec's worked scenario figures: `revenueRR = 10`,
`planAsrServicesRevenue = 50`, `serviceAsistRevenue = 200`. -/
def scenarioBase : CalculationResult :=
  { branchName := "X", revenueRR := 10, planAsrServicesRevenue := 50,
    serviceAsistRevenue := 200, daysRemaining := 12, weekdaysRemaining := 8,
    weekendsRemaining := 4, isTodayWeekend := false, finalValue := 0,
    rawRow := emptyRow }

/-- Figures with implied target 1000 and achieved revenue 1500. -/
def overachieverBase : CalculationResult :=
  { scenarioBase with revenueRR := 20, serviceAsistRevenue := 1500 }

/-- Application state holding the worked scenario with branch X selected,
no overrides and the default weekend weight 0.6. -/
def scenarioState : AppState :=
  { allCalculations := [scenarioBase], selectedBranch := "X",
    manualOverrides := fun _ => none, weekendWeight := 6 / 10 }

/-- A data row for branch A with numeric cells 1 / 2 / 3. -/
def rowA : RawRow :=
  { branch := some "A", revRR := CellValue.num 1, planAsr := CellValue.num 2,
    serAsist := CellValue.num 3 }

/-- A data row whose `revRR` and `planAsr` both ingest to exactly 0. -/
def rowZero : RawRow :=
  { branch := some "B", revRR := CellValue.num 0, planAsr := CellValue.blank,
    serAsist := CellValue.num 7 }

/-- The ingested entry produced from `rowA` under the scenario days. -/
def resultA : CalculationResult :=
  { branchName := "A", revenueRR := 1, planAsrServicesRevenue := 2,
    serviceAsistRevenue := 3, daysRemaining := 12, weekdaysRemaining := 8,
    weekendsRemaining := 4, isTodayWeekend := false, finalValue := 0, rawRow := rowA }

/-! ## Helper lemmas -/

/-- The counting loop classifies each of its `n` days exactly once. -/
theorem countDaysAux_sum (y m : Nat) :
    ∀ n d, (countDaysAux y m d n).1 + (countDaysAux y m d n).2 = n := by
  intro n
  induction n with
  | zero => intro d; rfl
  | succ k ih =>
    intro d
    have h := ih (d + 1)
    simp only [countDaysAux]
    split <;> simp <;> omega

/-- The counting loop computes the weekday/weekend filters of the processed
day range. -/
theorem countDaysAux_filter (y m : Nat) :
    ∀ n d, countDaysAux y m d n
      = (((List.range' d n).filter (fun k => !isWeekendDOW (jsGetDay y m k))).length,
         ((List.range' d n).filter (fun k => isWeekendDOW (jsGetDay y m k))).length) := by
  intro n
  induction n with
  | zero => intro d; rfl
  | succ k ih =>
    intro d
    simp only [countDaysAux, List.range'_succ, List.filter_cons, ih (d + 1)]
    by_cases hw : isWeekendDOW (jsGetDay y m d) <;> simp [hw]

/-! ## C2 — partition invariant of the Calendar Analyzer -/

/-- C2: for every reference date, the RemainingDaysInfo returned by the
Calendar Analyzer satisfies `weekdays + weekends = total` and
`total = (lastDayOfMonth - currentDayOfMonth) + 1`, where `weekdays` counts
the days from the reference day through month-end falling Monday–Friday and
`weekends` counts those falling Saturday or Sunday. -/
theorem calendar_partition_invariant (y m day : Nat)
    (h1 : 1 ≤ day) (h2 : day ≤ monthLength y m) :
    ((getRemainingDaysInfo y m day).weekdays : Int)
        + ((getRemainingDaysInfo y m day).weekends : Int)
        = (getRemainingDaysInfo y m day).total
    ∧ (getRemainingDaysInfo y m day).total = (monthLength y m : Int) - (day : Int) + 1
    ∧ (getRemainingDaysInfo y m day).weekdays
        = ((List.range' day (monthLength y m + 1 - day)).filter
            (fun d => !isWeekendDOW (jsGetDay y m d))).length
    ∧ (getRemainingDaysInfo y m day).weekends
        = ((List.range' day (monthLength y m + 1 - day)).filter
            (fun d => isWeekendDOW (jsGetDay y m d))).length := by
  have hsum := countDaysAux_sum y m (monthLength y m + 1 - day) day
  have hfil := countDaysAux_filter y m (monthLength y m + 1 - day) day
  refine ⟨?_, rfl, ?_, ?_⟩
  · simp only [getRemainingDaysInfo]
    omega
  · simp only [getRemainingDaysInfo, hfil]
  · simp only [getRemainingDaysInfo, hfil]

/-- Witness for C2 at the concrete date 2026-10-12. -/
theorem calendar_partition_invariant_witness :
    (1 ≤ 12 ∧ 12 ≤ monthLength 2026 9)
    ∧ (getRemainingDaysInfo 2026 9 12).total = (monthLength 2026 9 : Int) - 12 + 1 :=
  ⟨⟨by decide, by decide⟩, (calendar_partition_invariant 2026 9 12 (by decide) (by decide)).2.1⟩

/-! ## C10 — the reference day is always counted -/

/-- C10: for every reference date, the Calendar Analyzer returns
`total ≥ 1` (the reference day itself is counted), so it never produces a
record with both `weekdays = 0` and `weekends = 0` for a real date. -/
theorem calendar_total_ge_one (y m day : Nat)
    (h1 : 1 ≤ day) (h2 : day ≤ monthLength y m) :
    1 ≤ (getRemainingDaysInfo y m day).total
    ∧ ¬((getRemainingDaysInfo y m day).weekdays = 0
        ∧ (getRemainingDaysInfo y m day).weekends = 0) := by
  have hsum := countDaysAux_sum y m (monthLength y m + 1 - day) day
  constructor
  · simp only [getRemainingDaysInfo]
    omega
  · simp only [getRemainingDaysInfo]
    omega

/-- Witness for C10 at the concrete date 2026-10-12. -/
theorem calendar_total_ge_one_witness :
    (1 ≤ 12 ∧ 12 ≤ monthLength 2026 9) ∧ 1 ≤ (getRemainingDaysInfo 2026 9 12).total :=
  ⟨⟨by decide, by decide⟩, (calendar_total_ge_one 2026 9 12 (by decide) (by decide)).1⟩

/-! ## C6 — Gregorian leap-year rule -/

/-- C6: the month length used by the Calendar Analyzer follows the
Gregorian leap-year rule: February has 29 days exactly when
`(y % 4 = 0 ∧ y % 100 ≠ 0) ∨ y % 400 = 0`, so a reference date in
February 2024 sees a 29-day month and one in February 2023 a 28-day
month. -/
theorem calendar_leap_rule :
    (∀ y : Nat,
      (isLeapYear y = true ↔ ((y % 4 = 0 ∧ y % 100 ≠ 0) ∨ y % 400 = 0))
      ∧ monthLength y 1 = if isLeapYear y then 29 else 28)
    ∧ (getRemainingDaysInfo 2024 1 1).total = 29
    ∧ (getRemainingDaysInfo 2023 1 1).total = 28 := by
  refine ⟨fun y => ⟨?_, rfl⟩, by decide, by decide⟩
  simp only [isLeapYear, Bool.and_eq_true, Bool.or_eq_true, beq_iff_eq, bne_iff_ne, ne_eq]
  omega

/-! ## C5 — the reference date is ambient, not an explicit input -/

/-- Counterexample for C5: `getRemainingDaysInfo` takes no date parameter
(its source argument list is empty), so if its result depended on nothing
but its explicit inputs it would be constant across evaluations; it is
not — two ambient clock values give different results. -/
theorem calendar_ambient_clock_counterexample :
    getRemainingDaysInfoNow { year := 2024, month := 1, day := 1, msOfDay := 0 }
      ≠ getRemainingDaysInfoNow { year := 2024, month := 1, day := 2, msOfDay := 0 } := by
  decide

/-- C5 as amended: the Calendar Analyzer reads the ambient clock rather
than an explicit date parameter, and its result depends only on the
clock's calendar date (never on the time of day), so any two evaluations
under the same ambient date return the same RemainingDaysInfo. -/
theorem calendar_determined_by_date (w1 w2 : JsClock)
    (hy : w1.year = w2.year) (hm : w1.month = w2.month) (hd : w1.day = w2.day) :
    getRemainingDaysInfoNow w1 = getRemainingDaysInfoNow w2 := by
  cases w1
  cases w2
  simp_all [getRemainingDaysInfoNow]

/-- Witness for C5: two clock readings on 2026-10-12, at midnight and at
the last millisecond of the day, yield the same result. -/
theorem calendar_determined_by_date_witness :
    getRemainingDaysInfoNow { year := 2026, month := 9, day := 12, msOfDay := 0 }
      = getRemainingDaysInfoNow { year := 2026, month := 9, day := 12, msOfDay := 86399999 } :=
  calendar_determined_by_date _ _ rfl rfl rfl

/-! ## C1 — the target calculation -/

/-- C1: for every figures record, weekend weight and days info, the target
calculation computes `weightedDays = weekdays + weekendWeight * weekends`,
`targetTotal = revenueRR * planAsrServicesRevenue`,
`remainingGap = targetTotal - serviceAsistRevenue`, and
`finalValue = remainingGap / weightedDays` when `weightedDays > 0`, else 0;
the concrete scenario 10 / 50 / 200 with 8 weekdays, 4 weekend days and
weight 0.6 yields `finalValue = 300 / 10.4`. -/
theorem target_calculation (base : CalculationResult) (ww : ℚ) (di : RemainingDaysInfo)
    (hb : base.branchName ≠ "") :
    (filteredResult [base] base.branchName (fun _ => none) ww di).map
        CalculationResult.finalValue
      = some
          (if 0 < (di.weekdays : ℚ) + ww * (di.weekends : ℚ) then
            (base.revenueRR * base.planAsrServicesRevenue - base.serviceAsistRevenue)
              / ((di.weekdays : ℚ) + ww * (di.weekends : ℚ))
          else 0)
    ∧ (filteredResult [scenarioBase] "X" (fun _ => none) (6 / 10) scenarioDays).map
        CalculationResult.finalValue
      = some (300 / (10.4 : ℚ)) := by
  constructor
  · simp [filteredResult, hb]
  · have h : (0:ℚ) < 8 + 6 / 10 * 4 := by norm_num
    simp [filteredResult, scenarioBase, scenarioDays, h]
    norm_num

/-- Witness for C1 on the worked scenario record. -/
theorem target_calculation_witness :
    scenarioBase.branchName ≠ ""
    ∧ (filteredResult [scenarioBase] scenarioBase.branchName (fun _ => none) (6 / 10)
          scenarioDays).map CalculationResult.finalValue
      = some
          (if 0 < (scenarioDays.weekdays : ℚ) + 6 / 10 * (scenarioDays.weekends : ℚ) then
            (scenarioBase.revenueRR * scenarioBase.planAsrServicesRevenue
                - scenarioBase.serviceAsistRevenue)
              / ((scenarioDays.weekdays : ℚ) + 6 / 10 * (scenarioDays.weekends : ℚ))
          else 0) :=
  ⟨by decide, (target_calculation scenarioBase (6 / 10) scenarioDays (by decide)).1⟩

/-! ## C3 — unclamped completion percentage -/

/-- C3: `percentComplete = (serviceAsistRevenue / targetTotal) * 100` when
`targetTotal > 0` and 0 otherwise, and the value is not clamped to
`[0, 100]`: a record with implied target 1000 and achieved 1500 gives
exactly 150. -/
theorem percent_unclamped (fr : CalculationResult) :
    (progressStats (some fr)).percent
      = (if 0 < fr.revenueRR * fr.planAsrServicesRevenue then
          fr.serviceAsistRevenue / (fr.revenueRR * fr.planAsrServicesRevenue) * 100
        else 0)
    ∧ (progressStats (some fr)).target = fr.revenueRR * fr.planAsrServicesRevenue
    ∧ (progressStats (some overachieverBase)).target = 1000
    ∧ (progressStats (some overachieverBase)).percent = 150 := by
  refine ⟨rfl, rfl, ?_, ?_⟩
  · simp [progressStats, overachieverBase, scenarioBase]
    norm_num
  · simp [progressStats, overachieverBase, scenarioBase]
    norm_num

/-! ## C4 — override resolution -/

/-- C4: for a selected branch, the override entry's value is substituted
for `revenueRR` and for `serviceAsistRevenue` exactly when present
(otherwise the ingested value is used), `planAsrServicesRevenue` always
comes from the ingested record, and the target is recomputed from the
effective figures. -/
theorem override_resolution (base : CalculationResult) (ov : BranchOverride) (ww : ℚ)
    (di : RemainingDaysInfo) (hb : base.branchName ≠ "") :
    filteredResult [base] base.branchName
        (fun b => if b = base.branchName then some ov else none) ww di
      = some { base with
          revenueRR := ov.revenueRR.getD base.revenueRR
          serviceAsistRevenue := ov.serviceAsistRevenue.getD base.serviceAsistRevenue
          finalValue :=
            if 0 < (di.weekdays : ℚ) + ww * (di.weekends : ℚ) then
              (ov.revenueRR.getD base.revenueRR * base.planAsrServicesRevenue
                  - ov.serviceAsistRevenue.getD base.serviceAsistRevenue)
                / ((di.weekdays : ℚ) + ww * (di.weekends : ℚ))
            else 0 } := by
  simp [filteredResult, hb]

/-- Witness for C4: overriding only `serviceAsistRevenue` to 300 on the
worked scenario. -/
theorem override_resolution_witness :
    scenarioBase.branchName ≠ ""
    ∧ filteredResult [scenarioBase] scenarioBase.branchName
        (fun b => if b = scenarioBase.branchName then
            some { serviceAsistRevenue := some 300, revenueRR := none } else none)
        (6 / 10) scenarioDays
      = some { scenarioBase with
          revenueRR :=
            ({ serviceAsistRevenue := some 300, revenueRR := none } :
              BranchOverride).revenueRR.getD scenarioBase.revenueRR
          serviceAsistRevenue :=
            ({ serviceAsistRevenue := some 300, revenueRR := none } :
              BranchOverride).serviceAsistRevenue.getD scenarioBase.serviceAsistRevenue
          finalValue :=
            if 0 < (scenarioDays.weekdays : ℚ) + 6 / 10 * (scenarioDays.weekends : ℚ) then
              (({ serviceAsistRevenue := some 300, revenueRR := none } :
                    BranchOverride).revenueRR.getD scenarioBase.revenueRR
                    * scenarioBase.planAsrServicesRevenue
                  - ({ serviceAsistRevenue := some 300, revenueRR := none } :
                    BranchOverride).serviceAsistRevenue.getD scenarioBase.serviceAsistRevenue)
                / ((scenarioDays.weekdays : ℚ) + 6 / 10 * (scenarioDays.weekends : ℚ))
            else 0 } :=
  ⟨by decide,
    override_resolution scenarioBase
      { serviceAsistRevenue := some 300, revenueRR := none } (6 / 10) scenarioDays (by decide)⟩

/-- Evaluation lemma for the `filteredResult` memo when the selection is
non-empty, the branch is found, and weighted days remain. -/
theorem filteredResult_eq (cs : List CalculationResult) (sel : String)
    (mo : String → Option BranchOverride) (ww : ℚ) (di : RemainingDaysInfo)
    (base : CalculationResult)
    (hsel : sel ≠ "")
    (hfind : cs.find? (fun c => c.branchName == sel) = some base)
    (hw : 0 < (di.weekdays : ℚ) + ww * (di.weekends : ℚ)) :
    filteredResult cs sel mo ww di
      = some { base with
          serviceAsistRevenue :=
            ((mo sel).bind (fun o => o.serviceAsistRevenue)).getD base.serviceAsistRevenue
          revenueRR := ((mo sel).bind (fun o => o.revenueRR)).getD base.revenueRR
          finalValue :=
            (((mo sel).bind (fun o => o.revenueRR)).getD base.revenueRR
                * base.planAsrServicesRevenue
                - ((mo sel).bind (fun o => o.serviceAsistRevenue)).getD base.serviceAsistRevenue)
              / ((di.weekdays : ℚ) + ww * (di.weekends : ℚ)) } := by
  simp only [filteredResult, if_neg hsel, hfind, if_pos hw]

/-! ## C8 — override effect and frame -/

/-- C8 as amended: updating an override never touches the ingested
`allCalculations` list — for every state, field and value, without any
precondition — and applying a `serviceAsistRevenue` override whose value
differs from the current effective value changes `finalValue` and (when
the implied target is positive and weighted days remain)
`percentComplete` on the next recomputation. -/
theorem override_changes_result :
    (∀ (s : AppState) (field : OverrideField) (v : ℚ),
      (handleUpdateOverride s field v).allCalculations = s.allCalculations)
    ∧ (∀ (s : AppState) (di : RemainingDaysInfo) (base : CalculationResult) (v : ℚ),
      s.selectedBranch ≠ "" →
      s.allCalculations.find? (fun c => c.branchName == s.selectedBranch) = some base →
      v ≠ ((s.manualOverrides s.selectedBranch).bind
          (fun o => o.serviceAsistRevenue)).getD base.serviceAsistRevenue →
      0 < (di.weekdays : ℚ) + s.weekendWeight * (di.weekends : ℚ) →
      0 < ((s.manualOverrides s.selectedBranch).bind
          (fun o => o.revenueRR)).getD base.revenueRR * base.planAsrServicesRevenue →
      (filteredResultState (handleUpdateOverride s OverrideField.serviceAsistRevenue v) di).map
          CalculationResult.finalValue
        ≠ (filteredResultState s di).map CalculationResult.finalValue
      ∧ (progressStats (filteredResultState
            (handleUpdateOverride s OverrideField.serviceAsistRevenue v) di)).percent
        ≠ (progressStats (filteredResultState s di)).percent) := by
  constructor
  · intro s field v
    simp only [handleUpdateOverride]
    split <;> rfl
  intro s di base v hsel hfind hv hw ht
  have hbefore : filteredResultState s di
      = some { base with
          serviceAsistRevenue := ((s.manualOverrides s.selectedBranch).bind
            (fun o => o.serviceAsistRevenue)).getD base.serviceAsistRevenue
          revenueRR := ((s.manualOverrides s.selectedBranch).bind
            (fun o => o.revenueRR)).getD base.revenueRR
          finalValue := (((s.manualOverrides s.selectedBranch).bind
              (fun o => o.revenueRR)).getD base.revenueRR * base.planAsrServicesRevenue
              - ((s.manualOverrides s.selectedBranch).bind
                (fun o => o.serviceAsistRevenue)).getD base.serviceAsistRevenue)
            / ((di.weekdays : ℚ) + s.weekendWeight * (di.weekends : ℚ)) } := by
    simp only [filteredResultState, filteredResult, if_neg hsel, hfind, if_pos hw]
  have hafter : filteredResultState (handleUpdateOverride s OverrideField.serviceAsistRevenue v) di
      = some { base with
          serviceAsistRevenue := v
          revenueRR := ((s.manualOverrides s.selectedBranch).bind
            (fun o => o.revenueRR)).getD base.revenueRR
          finalValue := (((s.manualOverrides s.selectedBranch).bind
              (fun o => o.revenueRR)).getD base.revenueRR * base.planAsrServicesRevenue - v)
            / ((di.weekdays : ℚ) + s.weekendWeight * (di.weekends : ℚ)) } := by
    simp only [filteredResultState, handleUpdateOverride, if_neg hsel, hfind, if_pos hw,
      filteredResult]
    simp only [if_pos rfl, Option.bind_some, setField]
    cases h : s.manualOverrides s.selectedBranch <;>
      simp [h, setField, hfind, if_neg hsel, if_pos hw]
  refine ⟨?_, ?_⟩
  · rw [hbefore, hafter]
    intro heq
    simp only [Option.map_some', Option.some.injEq] at heq
    exact hv (sub_right_inj.mp ((div_left_inj' (ne_of_gt hw)).mp heq))
  · rw [hbefore, hafter]
    intro heq
    simp only [progressStats] at heq
    rw [if_pos ht, if_pos ht] at heq
    exact hv ((div_left_inj' (ne_of_gt ht)).mp (mul_right_cancel₀ (by norm_num) heq))

/-- Witness for C8 on the worked scenario: overriding ASR revenue from 200
to 100 preserves the ingested list and changes the final value. -/
theorem override_changes_result_witness :
    ((100 : ℚ) ≠ ((scenarioState.manualOverrides scenarioState.selectedBranch).bind
        (fun o => o.serviceAsistRevenue)).getD scenarioBase.serviceAsistRevenue)
    ∧ (handleUpdateOverride scenarioState OverrideField.serviceAsistRevenue 100).allCalculations
        = scenarioState.allCalculations
    ∧ (filteredResultState (handleUpdateOverride scenarioState OverrideField.serviceAsistRevenue 100)
          scenarioDays).map CalculationResult.finalValue
      ≠ (filteredResultState scenarioState scenarioDays).map CalculationResult.finalValue :=
  have H := override_changes_result.2 scenarioState scenarioDays scenarioBase 100
    (by decide) (by decide) (by decide)
    (by norm_num [scenarioState, scenarioDays])
    (by norm_num [scenarioState, scenarioBase])
  ⟨by decide,
    override_changes_result.1 scenarioState OverrideField.serviceAsistRevenue 100, H.1⟩

/-- Counterexample for C8 as stated: applying a `serviceAsistRevenue`
override whose value equals the current one (200, the scenario's ingested
value) changes neither `finalValue` nor `percentComplete`. -/
theorem override_noop_counterexample :
    (filteredResultState (handleUpdateOverride scenarioState
          OverrideField.serviceAsistRevenue 200) scenarioDays).map CalculationResult.finalValue
      = (filteredResultState scenarioState scenarioDays).map CalculationResult.finalValue
    ∧ (progressStats (filteredResultState (handleUpdateOverride scenarioState
          OverrideField.serviceAsistRevenue 200) scenarioDays)).percent
      = (progressStats (filteredResultState scenarioState scenarioDays)).percent := by
  have hw : (0:ℚ) < (scenarioDays.weekdays : ℚ) + (6 / 10 : ℚ) * (scenarioDays.weekends : ℚ) := by
    norm_num [scenarioDays]
  have h1 := filteredResult_eq [scenarioBase] "X" (fun _ => none) (6 / 10) scenarioDays
    scenarioBase (by decide) (by decide) hw
  have h2 := filteredResult_eq [scenarioBase] "X"
    (fun b => if b = "X" then some { serviceAsistRevenue := some 200, revenueRR := none } else none)
    (6 / 10) scenarioDays scenarioBase (by decide) (by decide) hw
  have e1 : filteredResultState scenarioState scenarioDays
      = filteredResult [scenarioBase] "X" (fun _ => none) (6 / 10) scenarioDays := rfl
  have e2 : filteredResultState (handleUpdateOverride scenarioState
        OverrideField.serviceAsistRevenue 200) scenarioDays
      = filteredResult [scenarioBase] "X"
          (fun b => if b = "X" then
            some { serviceAsistRevenue := some 200, revenueRR := none } else none)
          (6 / 10) scenarioDays := rfl
  rw [e1, e2, h1, h2]
  simp [scenarioBase, progressStats]

/-! ## C7 — numeric ingestion rules -/

/-- C7: numeric ingestion returns a numeric cell as-is; otherwise it strips
whitespace, converts a decimal comma to a decimal point and parses,
yielding 0 for an unparseable or absent value; `revenueRR` and
`serviceAsistRevenue` are rounded to the nearest integer while
`planAsrServicesRevenue` keeps fractional precision; and a row whose
ingested `revenueRR` and `planAsrServicesRevenue` are both exactly 0 is
excluded from the result list. -/
theorem ingestion_rules :
    (∀ q : ℚ, parseVal (CellValue.num q) = q)
    ∧ parseVal CellValue.blank = 0
    ∧ parseVal (CellValue.str "") = 0
    ∧ (∀ s : String, s ≠ "" →
        parseVal (CellValue.str s)
          = (jsParseFloat (String.mk (replaceFirstComma
              (s.data.filter (fun c => !c.isWhitespace))))).getD 0)
    ∧ parseVal (CellValue.str "1 234,56") = 123456 / 100
    ∧ parseVal (CellValue.str "abc") = 0
    ∧ (∀ (di : RemainingDaysInfo) (row : RawRow) (s : String),
        row.branch = some s → jsTrim s ≠ "" →
        ¬(jsRound (parseVal row.revRR) = 0 ∧ parseVal row.planAsr = 0) →
        processRows di [row]
          = [{ branchName := jsTrim s
               revenueRR := (jsRound (parseVal row.revRR) : ℚ)
               planAsrServicesRevenue := parseVal row.planAsr
               serviceAsistRevenue := (jsRound (parseVal row.serAsist) : ℚ)
               daysRemaining := di.total
               weekdaysRemaining := di.weekdays
               weekendsRemaining := di.weekends
               isTodayWeekend := di.isTodayWeekend
               finalValue := 0
               rawRow := row }])
    ∧ (∀ (di : RemainingDaysInfo) (row : RawRow) (s : String),
        row.branch = some s →
        jsRound (parseVal row.revRR) = 0 → parseVal row.planAsr = 0 →
        processRows di [row] = []) := by
  refine ⟨fun q => rfl, rfl, rfl, ?_, ?_, ?_, ?_, ?_⟩
  · intro s hs
    simp only [parseVal, if_neg hs]
    cases jsParseFloat (String.mk (replaceFirstComma
        (s.data.filter (fun c => !c.isWhitespace)))) <;> rfl
  · have h1 : List.dropWhile Char.isWhitespace
        (replaceFirstComma ['1','2','3','4',',','5','6'])
        = ['1','2','3','4','.','5','6'] := by decide
    have h2 : scanFloat ['1','2','3','4','.','5','6']
        = some { neg := false, ip := ['1','2','3','4'], fp := ['5','6'],
                 eneg := false, ed := [] } := by decide
    simp [parseVal, jsParseFloat, h1, h2, floatScanValue, digitsToNat]
    norm_num
  · have h1 : List.dropWhile Char.isWhitespace (replaceFirstComma ['a','b','c'])
        = ['a','b','c'] := by decide
    have h2 : scanFloat ['a','b','c'] = none := by decide
    simp [parseVal, jsParseFloat, h1, h2]
  · intro di row s hb ht hnz
    simp only [processRows, hb, if_neg ht, if_neg hnz]
  · intro di row s hb hr hp
    simp only [processRows, hb]
    by_cases ht : jsTrim s = ""
    · simp [ht]
    · simp [if_neg ht, hr, hp]

/-- Witness for C7: the all-zero row `rowZero` is dropped from ingestion. -/
theorem ingestion_rules_witness :
    (rowZero.branch = some "B"
      ∧ jsRound (parseVal rowZero.revRR) = 0 ∧ parseVal rowZero.planAsr = 0)
    ∧ processRows scenarioDays [rowZero] = [] :=
  have hr : jsRound (parseVal rowZero.revRR) = 0 := by
    norm_num [rowZero, parseVal, jsRound]
  ⟨⟨rfl, hr, rfl⟩,
    ingestion_rules.2.2.2.2.2.2.2 scenarioDays rowZero "B" rfl hr rfl⟩

/-! ## C9 — branch names after ingestion -/

/-- Counterexample for C9 as stated: ingestion performs no deduplication,
so a report containing the same branch row twice yields two entries with
the same branch name — the names are not pairwise distinct. -/
theorem ingestion_duplicate_counterexample :
    ((processRows scenarioDays [rowA, rowA]).map CalculationResult.branchName = ["A", "A"])
    ∧ ¬ ((processRows scenarioDays [rowA, rowA]).map CalculationResult.branchName).Nodup := by
  have hA : jsTrim "A" = "A" := by decide
  have hne : ("A" : String) ≠ "" := by decide
  have h : processRows scenarioDays [rowA, rowA] = [resultA, resultA] := by
    norm_num [processRows, rowA, resultA, parseVal, jsRound, hA, hne, scenarioDays]
  rw [h]
  simp [resultA]

/-- C9 as amended: every entry produced by report ingestion has a
non-empty branch name (rows whose branch cell is absent or trims to the
empty string are skipped); branch names need not be pairwise distinct. -/
theorem ingestion_branch_nonempty (di : RemainingDaysInfo) (rows : List RawRow)
    (r : CalculationResult) (hr : r ∈ processRows di rows) :
    r.branchName ≠ "" := by
  induction rows with
  | nil => simp [processRows] at hr
  | cons row rest ih =>
    cases hb : row.branch with
    | none => simp only [processRows, hb] at hr; exact ih hr
    | some s =>
      simp only [processRows, hb] at hr
      by_cases ht : jsTrim s = ""
      · rw [if_pos ht] at hr; exact ih hr
      · rw [if_neg ht] at hr
        by_cases hz : jsRound (parseVal row.revRR) = 0 ∧ parseVal row.planAsr = 0
        · rw [if_pos hz] at hr; exact ih hr
        · rw [if_neg hz] at hr
          rcases List.mem_cons.mp hr with h | h
          · rw [h]; exact ht
          · exact ih h

/-- Witness for C9: the single entry produced from `rowA` has the
non-empty branch name A. -/
theorem ingestion_branch_nonempty_witness :
    (resultA ∈ processRows scenarioDays [rowA]) ∧ resultA.branchName ≠ "" :=
  have hA : jsTrim "A" = "A" := by decide
  have hne : ("A" : String) ≠ "" := by decide
  have hsingle : processRows scenarioDays [rowA] = [resultA] := by
    norm_num [processRows, rowA, resultA, parseVal, jsRound, hA, hne, scenarioDays]
  have hm : resultA ∈ processRows scenarioDays [rowA] := by
    rw [hsingle]; exact List.mem_singleton_self resultA
  ⟨hm, ingestion_branch_nonempty scenarioDays [rowA] resultA hm⟩
